import Mathlib

set_option maxRecDepth 4000

/-!
Shallow embedding of `0x02-redis_basic/exercise.py`.

The Python module wraps a Redis connection in a `Cache` class with `store`,
`get`, `get_str`, `get_int`, two decorators `count_calls` and `call_history`,
and a `replay` reader.  Lines 86-87 try to apply both decorators to
`Cache.store`, but the bare `@functools.wraps` on line 12 leaves
`Cache.store` a `functools.partial`, so line 86 raises `AttributeError`
while reading `method.__qualname__` and the module never finishes
importing; the composition those lines intend is therefore modelled by a
separate, explicitly intent-level definition.

The Redis server is modelled by `RedisState`: a keyspace mapping keys to
either a byte-string value or a list of byte strings, together with an
append-only event trace recording every mutating command in execution
order.  Bytes are modelled as `Nat` (each `< 256` on reachable values),
Python `str` as Lean `String` with an explicit UTF-8 codec, and the
nondeterministic `str(uuid.uuid4())` as an explicit key parameter (an
oracle standing for the generated key).
-/

deriving instance DecidableEq for Except

/-- Unicode scalar value of a character, UTF-8 encoded (1 to 4 bytes). -/
def utf8EncodeChar (n : Nat) : List Nat :=
  if n < 0x80 then [n]
  else if n < 0x800 then [0xC0 + n / 0x40, 0x80 + n % 0x40]
  else if n < 0x10000 then
    [0xE0 + n / 0x1000, 0x80 + (n / 0x40) % 0x40, 0x80 + n % 0x40]
  else
    [0xF0 + n / 0x40000, 0x80 + (n / 0x1000) % 0x40, 0x80 + (n / 0x40) % 0x40,
     0x80 + n % 0x40]

/-- UTF-8 encoding of a string, as Python `str.encode("utf-8")` produces it. -/
def utf8Encode (s : String) : List Nat :=
  (s.data.map (fun c => utf8EncodeChar c.toNat)).flatten

/-- Strict UTF-8 decoding of one scalar value from the front of a byte
string: rejects continuation bytes in lead position, overlong forms,
surrogates and values above 0x10FFFF, as Python `bytes.decode("utf-8")`
does.  Returns the scalar and the remaining bytes, or `none` on invalid
input. -/
def utf8DecodeOne : List Nat → Option (Nat × List Nat)
  | [] => none
  | b0 :: bs =>
    if b0 < 0x80 then some (b0, bs)
    else if b0 < 0xC2 then none
    else if b0 < 0xE0 then
      match bs with
      | b1 :: rest =>
        if 0x80 ≤ b1 ∧ b1 < 0xC0 then
          some ((b0 - 0xC0) * 0x40 + (b1 - 0x80), rest)
        else none
      | [] => none
    else if b0 < 0xF0 then
      match bs with
      | b1 :: b2 :: rest =>
        if (0x80 ≤ b1 ∧ b1 < 0xC0) ∧ (0x80 ≤ b2 ∧ b2 < 0xC0) ∧
           0x800 ≤ (b0 - 0xE0) * 0x1000 + (b1 - 0x80) * 0x40 + (b2 - 0x80) ∧
           ¬ (0xD800 ≤ (b0 - 0xE0) * 0x1000 + (b1 - 0x80) * 0x40 + (b2 - 0x80) ∧
              (b0 - 0xE0) * 0x1000 + (b1 - 0x80) * 0x40 + (b2 - 0x80) < 0xE000) then
          some ((b0 - 0xE0) * 0x1000 + (b1 - 0x80) * 0x40 + (b2 - 0x80), rest)
        else none
      | _ => none
    else if b0 < 0xF5 then
      match bs with
      | b1 :: b2 :: b3 :: rest =>
        if (0x80 ≤ b1 ∧ b1 < 0xC0) ∧ (0x80 ≤ b2 ∧ b2 < 0xC0) ∧
           (0x80 ≤ b3 ∧ b3 < 0xC0) ∧
           0x10000 ≤ (b0 - 0xF0) * 0x40000 + (b1 - 0x80) * 0x1000 +
                     (b2 - 0x80) * 0x40 + (b3 - 0x80) ∧
           (b0 - 0xF0) * 0x40000 + (b1 - 0x80) * 0x1000 +
                     (b2 - 0x80) * 0x40 + (b3 - 0x80) < 0x110000 then
          some ((b0 - 0xF0) * 0x40000 + (b1 - 0x80) * 0x1000 +
                (b2 - 0x80) * 0x40 + (b3 - 0x80), rest)
        else none
      | _ => none
    else none

/-- Iterated UTF-8 decoding, with recursion on a fuel counter.  Each
successful `utf8DecodeOne` step consumes at least one byte, so fuel equal
to the length of the input never runs out. -/
def utf8DecodeScalarsFuel : Nat → List Nat → Option (List Nat)
  | _, [] => some []
  | 0, _ :: _ => none
  | fuel + 1, b0 :: bs =>
    match utf8DecodeOne (b0 :: bs) with
    | none => none
    | some (n, rest) =>
      (utf8DecodeScalarsFuel fuel rest).map (fun ns => n :: ns)

/-- Strict UTF-8 decoding of a whole byte string to scalar values. -/
def utf8DecodeScalars (l : List Nat) : Option (List Nat) :=
  utf8DecodeScalarsFuel l.length l

/-- Turn a list of unicode scalar values into a string (`none` if some value
is not a valid scalar). -/
def scalarsToChars : List Nat → Option (List Char)
  | [] => some []
  | n :: ns =>
    if n.isValidChar then
      (scalarsToChars ns).map (fun cs => Char.ofNat n :: cs)
    else none

/-- Python `bytes.decode("utf-8")`: `none` models `UnicodeDecodeError`. -/
def utf8Decode (bs : List Nat) : Option String :=
  (utf8DecodeScalars bs).bind (fun ns => (scalarsToChars ns).map String.mk)

/-- Decimal digits, least significant first, by fuel recursion: fuel equal
to `n` always suffices, since `n / 10 < n` for positive `n`. -/
def natDigitsRevFuel : Nat → Nat → List Nat
  | _, 0 => []
  | 0, _ + 1 => []
  | f + 1, n + 1 => (n + 1) % 10 :: natDigitsRevFuel f ((n + 1) / 10)

/-- Decimal digits of `n`, least significant first (empty for 0). -/
def natDigitsRev (n : Nat) : List Nat := natDigitsRevFuel n n

/-- Decimal digits of `n`, most significant first; `[0]` for 0. -/
def natRenderDigits (n : Nat) : List Nat :=
  if n = 0 then [0] else (natDigitsRev n).reverse

/-- ASCII bytes of the decimal rendering of an integer, as both Python
`str(i)` / `repr(i)` and the Redis integer-to-string conversion produce. -/
def intRenderBytes : Int → List Nat
  | .ofNat n => (natRenderDigits n).map (fun d => d + 48)
  | .negSucc m => 45 :: (natRenderDigits (m + 1)).map (fun d => d + 48)

/-- Decimal rendering of an integer as a Lean string (ASCII). -/
def intRenderStr (i : Int) : String :=
  String.mk ((intRenderBytes i).map Char.ofNat)

/-- Value of a nonempty all-digit byte string, accumulator style. -/
def digitsValAux (acc : Nat) : List Nat → Option Nat
  | [] => some acc
  | b :: rest =>
    if 48 ≤ b ∧ b ≤ 57 then digitsValAux (acc * 10 + (b - 48)) rest else none

/-- Value of a nonempty all-digit byte string (`none` otherwise). -/
def digitsVal (bs : List Nat) : Option Nat :=
  match bs with
  | [] => none
  | _ :: _ => digitsValAux 0 bs

/-- Redis-side parse of a stored value as an integer (used by `INCR`):
an optional minus sign followed by decimal digits; `none` models the
"value is not an integer" error reply. -/
def parseIntBytes (bs : List Nat) : Option Int :=
  match bs with
  | [] => none
  | b :: rest =>
    if b = 45 then (digitsVal rest).map (fun n => -(n : Int))
    else (digitsVal (b :: rest)).map Int.ofNat

/-- ASCII whitespace bytes stripped by Python `int(bytes)`. -/
def isWsByte (b : Nat) : Bool := decide (b = 32 ∨ (9 ≤ b ∧ b ≤ 13))

/-- An optional sign followed by decimal digits. -/
def pySignedDigits : List Nat → Option Int
  | [] => none
  | b :: rest =>
    if b = 43 then (digitsVal rest).map Int.ofNat
    else if b = 45 then (digitsVal rest).map (fun n => -(n : Int))
    else (digitsVal (b :: rest)).map Int.ofNat

/-- Python `int(bytes)`: strips surrounding ASCII whitespace, then an
optional sign followed by decimal digits; `none` models `ValueError`. -/
def pyIntParse (bs : List Nat) : Option Int :=
  pySignedDigits (((bs.dropWhile isWsByte).reverse.dropWhile isWsByte).reverse)

/-- A scalar value accepted by `Cache.store` (`Union[str, bytes, int,
float]`).  The program never computes with floats: it only ever serializes
them through `repr`, so a float is modelled by its textual rendering. -/
inductive PyVal where
  | str (s : String)
  | bytes (b : List Nat)
  | int (n : Int)
  | float (r : String)
  deriving DecidableEq, Repr

/-- Lowercase hexadecimal digit character. -/
def hexDigit (n : Nat) : Char :=
  if n < 10 then Char.ofNat (48 + n) else Char.ofNat (87 + n)

/-- Two lowercase hex digits of a byte. -/
def hexByte (n : Nat) : List Char := [hexDigit (n / 16), hexDigit (n % 16)]

/-- The single-quote character (written via its code point). -/
def squoteC : Char := Char.ofNat 39

/-- The double-quote character. -/
def dquoteC : Char := Char.ofNat 34

/-- Escaping of one character inside a Python `repr` string literal with
quote character `q`. -/
def pyEscapeChar (q : Char) (c : Char) : List Char :=
  if c = '\\' then ['\\', '\\']
  else if c = q then ['\\', q]
  else if c = '\n' then ['\\', 'n']
  else if c = '\r' then ['\\', 'r']
  else if c = '\t' then ['\\', 't']
  else if c.toNat < 32 ∨ c.toNat = 127 then '\\' :: 'x' :: hexByte c.toNat
  else [c]

/-- Python `repr` of a `str`: single-quoted unless the string contains a
single quote and no double quote. -/
def pyReprStr (s : String) : String :=
  let q := if s.data.contains squoteC && !(s.data.contains dquoteC)
           then dquoteC else squoteC
  String.mk (q :: (s.data.map (pyEscapeChar q)).flatten ++ [q])

/-- Escaping of one byte inside a Python `repr` bytes literal. -/
def pyEscapeByte (q : Nat) (b : Nat) : List Char :=
  if b = 92 then ['\\', '\\']
  else if b = q then ['\\', Char.ofNat q]
  else if b = 9 then ['\\', 't']
  else if b = 10 then ['\\', 'n']
  else if b = 13 then ['\\', 'r']
  else if 32 ≤ b ∧ b ≤ 126 then [Char.ofNat b]
  else '\\' :: 'x' :: hexByte (b % 256)

/-- Python `repr` of a `bytes` object. -/
def pyReprBytes (bs : List Nat) : String :=
  let q := if bs.contains 39 && !(bs.contains 34) then 34 else 39
  String.mk ('b' :: Char.ofNat q :: (bs.map (pyEscapeByte q)).flatten ++
             [Char.ofNat q])

/-- Python `repr` of a stored scalar. -/
def pyRepr : PyVal → String
  | .str s => pyReprStr s
  | .bytes b => pyReprBytes b
  | .int n => intRenderStr n
  | .float r => r

/-- Python `str` of a stored scalar (`str` of a `str` is the string itself;
on the other scalar types it agrees with `repr`). -/
def pyStr : PyVal → String
  | .str s => s
  | v => pyRepr v

/-- Python `str` of a tuple of scalars, as `call_history` renders `args`
(line 77: `str(args)`). -/
def pyStrTuple (args : List PyVal) : String :=
  match args with
  | [] => "()"
  | [a] => "(" ++ pyRepr a ++ ",)"
  | _ => "(" ++ String.intercalate ", " (args.map pyRepr) ++ ")"

/-- Serialization the redis client applies to a value passed to `SET`:
text is UTF-8 encoded, binary passes through, numbers are rendered in
decimal / by their `repr`. -/
def encodeValue : PyVal → List Nat
  | .str s => utf8Encode s
  | .bytes b => b
  | .int n => intRenderBytes n
  | .float r => utf8Encode r

/-- A Redis value: every key holds either a byte string or a list of byte
strings. -/
inductive RVal where
  | str (b : List Nat)
  | list (items : List (List Nat))
  deriving DecidableEq, Repr

/-- A mutating Redis command, recorded in execution order. -/
inductive REvent where
  | flushdb
  | set (key : String) (value : List Nat)
  | incr (key : String)
  | rpush (key : String) (value : List Nat)
  deriving DecidableEq, Repr

/-- Redis error replies surfaced to the client. -/
inductive RErr where
  | wrongType
  | notAnInteger
  deriving DecidableEq, Repr

/-- The Redis server state: the keyspace plus the trace of mutating
commands executed so far. -/
structure RedisState where
  kv : String → Option RVal
  events : List REvent

/-- Pointwise update of the keyspace. -/
def updFn (f : String → Option RVal) (k : String) (v : RVal) :
    String → Option RVal :=
  fun k2 => if k2 = k then some v else f k2

/-- `FLUSHDB`: removes every key. -/
def RedisState.flushdb (st : RedisState) : RedisState :=
  { kv := fun _ => none, events := st.events ++ [REvent.flushdb] }

/-- `SET key value`: stores a byte string, overwriting any previous value
of any type. -/
def RedisState.set (st : RedisState) (k : String) (v : List Nat) :
    RedisState :=
  { kv := updFn st.kv k (RVal.str v), events := st.events ++ [REvent.set k v] }

/-- `GET key`: `none` when absent, the byte string when present; errors on
a list-typed key. -/
def RedisState.get (st : RedisState) (k : String) :
    Except RErr (Option (List Nat)) :=
  match st.kv k with
  | none => .ok none
  | some (RVal.str b) => .ok (some b)
  | some (RVal.list _) => .error RErr.wrongType

/-- `INCR key`: an absent key counts as 0; a stored integer string is
incremented and written back; anything else errors. -/
def RedisState.incr (st : RedisState) (k : String) :
    Except RErr (RedisState × Int) :=
  match st.kv k with
  | some (RVal.list _) => .error RErr.wrongType
  | some (RVal.str b) =>
    match parseIntBytes b with
    | none => .error RErr.notAnInteger
    | some i =>
      .ok ({ kv := updFn st.kv k (RVal.str (intRenderBytes (i + 1))),
             events := st.events ++ [REvent.incr k] }, i + 1)
  | none =>
    .ok ({ kv := updFn st.kv k (RVal.str (intRenderBytes 1)),
           events := st.events ++ [REvent.incr k] }, 1)

/-- `RPUSH key value`: appends to the list at `key`, creating it if absent;
errors on a string-typed key.  Returns the new length. -/
def RedisState.rpush (st : RedisState) (k : String) (v : List Nat) :
    Except RErr (RedisState × Nat) :=
  match st.kv k with
  | some (RVal.str _) => .error RErr.wrongType
  | some (RVal.list l) =>
    .ok ({ kv := updFn st.kv k (RVal.list (l ++ [v])),
           events := st.events ++ [REvent.rpush k v] }, (l ++ [v]).length)
  | none =>
    .ok ({ kv := updFn st.kv k (RVal.list [v]),
           events := st.events ++ [REvent.rpush k v] }, 1)

/-- `LRANGE key 0 -1`: the whole list, `[]` when the key is absent; errors
on a string-typed key. -/
def RedisState.lrangeAll (st : RedisState) (k : String) :
    Except RErr (List (List Nat)) :=
  match st.kv k with
  | none => .ok []
  | some (RVal.list l) => .ok l
  | some (RVal.str _) => .error RErr.wrongType

/-- A Python-level exception escaping this module. -/
inductive PyErr where
  | typeError
  | valueError
  | unicodeDecodeError
  | redis (e : RErr)
  deriving DecidableEq, Repr

/-- A call site: positional arguments and keyword arguments, as received
by a `wrapper(self, *args, **kwargs)`. -/
structure CallArgs where
  args : List PyVal
  kwargs : List (String × PyVal)
  deriving DecidableEq, Repr

/-- Binding of `*args, **kwargs` against the signature
`store(self, data)`: exactly one positional argument, or exactly the
keyword argument `data`; anything else raises `TypeError`. -/
def bindStoreArgs (c : CallArgs) : Option PyVal :=
  match c.args, c.kwargs with
  | [v], [] => some v
  | [], [(k, v)] => if k = "data" then some v else none
  | _, _ => none

/-- A bound method on the cache, as the decorators see it: it reads and
writes the Redis state, receives `*args, **kwargs`, and either raises or
returns a Python value. -/
def Method : Type :=
  RedisState → CallArgs → Except PyErr (RedisState × PyVal)

/-- `Cache.__init__` (lines 7-10): connect and `flushdb`. -/
def Cache.init (st : RedisState) : RedisState := st.flushdb

/-- `Cache.store` (body, lines 23-25): writes the data under the freshly
generated key and returns the key.  `key` is the oracle standing for
`str(uuid.uuid4())`. -/
def Cache.store (key : String) : Method := fun st c =>
  match bindStoreArgs c with
  | none => .error PyErr.typeError
  | some data => .ok (st.set key (encodeValue data), PyVal.str key)

/-- `Cache.get` (lines 27-41): reads the raw value; applies `fn` only when
both the value and `fn` are present. -/
def Cache.get (st : RedisState) (key : String)
    (fn : Option (List Nat → Except PyErr PyVal)) :
    Except PyErr (Option PyVal) :=
  match st.get key with
  | .error e => .error (PyErr.redis e)
  | .ok data =>
    match data, fn with
    | some d, some f => (f d).map some
    | _, _ => .ok (data.map PyVal.bytes)

/-- `Cache.get_str` (lines 43-45): `get` with `lambda d: d.decode("utf-8")`. -/
def Cache.get_str (st : RedisState) (key : String) :
    Except PyErr (Option PyVal) :=
  Cache.get st key (some (fun d =>
    match utf8Decode d with
    | some s => .ok (PyVal.str s)
    | none => .error PyErr.unicodeDecodeError))

/-- `Cache.get_int` (lines 47-49): `get` with `lambda d: int(d)`. -/
def Cache.get_int (st : RedisState) (key : String) :
    Except PyErr (Option PyVal) :=
  Cache.get st key (some (fun d =>
    match pyIntParse d with
    | some n => .ok (PyVal.int n)
    | none => .error PyErr.valueError))

/-- `count_calls` (lines 53-64): `key` is `method.__qualname__`; the
wrapper increments the counter at `key`, then runs the wrapped method and
returns its result unchanged. -/
def count_calls (key : String) (method : Method) : Method := fun st c =>
  match st.incr key with
  | .error e => .error (PyErr.redis e)
  | .ok (st1, _) => method st1 c

/-- `call_history` (lines 66-83): `key` is `method.__qualname__`; the
wrapper appends `str(args)` to `key ++ ":inputs"`, runs the wrapped
method, appends `str(output)` to `key ++ ":outputs"`, and returns the
output. -/
def call_history (key : String) (method : Method) : Method := fun st c =>
  match st.rpush (key ++ ":inputs") (utf8Encode (pyStrTuple c.args)) with
  | .error e => .error (PyErr.redis e)
  | .ok (st1, _) =>
    match method st1 c with
    | .error e => .error e
    | .ok (st2, output) =>
      match st2.rpush (key ++ ":outputs") (utf8Encode (pyStr output)) with
      | .error e => .error (PyErr.redis e)
      | .ok (st3, _) => .ok (st3, output)

/-- Modelled from the spec: the instrumented store that lines 86-87 intend
to build and that the spec describes, `call_history(count_calls(store))`
with both decorators keyed by the store function's qualified name
"Cache.store".  The source never constructs it: line 12's bare
`@functools.wraps` leaves `Cache.store` a `functools.partial` without
`__qualname__`, so line 86 raises `AttributeError` (see `line12CacheStore`
and `line86QualnameRead`) before any wrapper exists, and even the callable
it would wrap is that partial, not the store body.  This definition backs
the code-bug verdicts on the claims about the instrumented store by
proving what the intended decoration does. -/
def Cache.storeDecoratedIntended (key : String) : Method :=
  call_history "Cache.store" (count_calls "Cache.store" (Cache.store key))

/-- `n` successive calls of the intended decorated `store` on one cache:
call `i` uses the fresh key `uuids i` and the call site `calls i`.
Returns the final state together with the list of returned values.  (In
the source no such call can happen: the module fails to import, see
`line86QualnameRead`.) -/
def runStores (uuids : Nat → String) (calls : Nat → CallArgs) :
    Nat → RedisState → Except PyErr (RedisState × List PyVal)
  | 0, st => .ok (st, [])
  | n + 1, st =>
    match runStores uuids calls n st with
    | .error e => .error e
    | .ok (stn, outs) =>
      match Cache.storeDecoratedIntended (uuids n) stn (calls n) with
      | .error e => .error e
      | .ok (st2, out) => .ok (st2, outs ++ [out])

/-- One transcript line of `replay` (line 107): both log entries are
UTF-8 decoded and interpolated. -/
def replayLines (qualname : String) :
    List (List Nat × List Nat) → Option (List String)
  | [] => some []
  | (i, o) :: rest =>
    match utf8Decode i, utf8Decode o with
    | some si, some so =>
      (replayLines qualname rest).map
        (fun ls => (qualname ++ "(*" ++ si ++ ") -> " ++ so) :: ls)
    | _, _ => none

/-- `replay` (lines 91-107): reads both logs in full, prints the header
with `len(inputs)`, then one line per `zip`-pair.  The returned list holds
the printed lines in order. -/
def replay (st : RedisState) (qualname : String) :
    Except PyErr (List String) :=
  match st.lrangeAll (qualname ++ ":inputs") with
  | .error e => .error (PyErr.redis e)
  | .ok inputs =>
    match st.lrangeAll (qualname ++ ":outputs") with
    | .error e => .error (PyErr.redis e)
    | .ok outputs =>
      match replayLines qualname (inputs.zip outputs) with
      | none => .error PyErr.unicodeDecodeError
      | some ls =>
        .ok ((qualname ++ " was called " ++ intRenderStr inputs.length ++
              " times:") :: ls)

/-- A Redis connection with an empty keyspace and empty command trace. -/
def emptyState : RedisState := { kv := fun _ => none, events := [] }

/-- The value of a key holding the list `l`: absent when `l` is empty
(`RPUSH` creates the key on the first push and a list never shrinks here). -/
def optOfList (l : List (List Nat)) : Option RVal :=
  if l = [] then none else some (RVal.list l)

/-- The value of the call counter after `n` increments: absent for `n = 0`. -/
def optCounter (n : Nat) : Option RVal :=
  if n = 0 then none else some (RVal.str (intRenderBytes n))

/-- A store state in which the call counter disagrees with the logs:
the counter reads "5" while only two calls are logged. -/
def mismatchState : RedisState :=
  { kv := fun k =>
      if k = "Cache.store" then some (RVal.str [53])
      else if k = "Cache.store:inputs" then
        some (RVal.list [[40, 41], [40, 41]])
      else if k = "Cache.store:outputs" then
        some (RVal.list [[107], [107]])
      else none,
    events := [] }

/-- Attribute-level model of the Python callables involved in the
module-level decoration.  A plain function exposes a `__qualname__`
attribute.  `functools.wraps(f)`, applied to a function as line 12 does
(with no separate wrapper argument), evaluates to
`functools.partial(functools.update_wrapper, wrapped=f, ...)`, and a
`functools.partial` object exposes no `__qualname__` attribute. -/
inductive PyCallable where
  | pyFunction (qualname : String)
  | updateWrapperPartialApp (wrappedQualname : String)
  deriving DecidableEq, Repr

/-- The class attribute `Cache.store` as the class body leaves it: the
bare decorator `@functools.wraps` on line 12 replaces the `store`
function by `functools.wraps(store)`, a `functools.partial` object. -/
def line12CacheStore : PyCallable :=
  PyCallable.updateWrapperPartialApp "Cache.store"

/-- The `method.__qualname__` attribute read performed by `count_calls`
at line 57 when line 86 evaluates `count_calls(Cache.store)`: `none`
models the `AttributeError` Python raises when the attribute is absent. -/
def qualnameAttr : PyCallable → Option String
  | .pyFunction q => some q
  | .updateWrapperPartialApp _ => none

/-- The attribute read performed when line 86 evaluates
`count_calls(Cache.store)`: `count_calls` reads `method.__qualname__`
(line 57) on the class attribute left by line 12.  The result is `none`,
i.e. Python raises `AttributeError` and the module import aborts, so the
source never constructs an instrumented `store`. -/
def line86QualnameRead : Option String := qualnameAttr line12CacheStore

/-! ### Decimal rendering and parsing -/

theorem natDigitsRevFuel_eq (n : Nat) :
    ∀ f, n ≤ f → natDigitsRevFuel f n = natDigitsRev n := by
  induction n using Nat.strong_induction_on with
  | _ n ih =>
    intro f hf
    cases n with
    | zero => cases f <;> rfl
    | succ m =>
      cases f with
      | zero => omega
      | succ a =>
        unfold natDigitsRev
        simp only [natDigitsRevFuel]
        congr 1
        rw [ih ((m + 1) / 10) (by omega) a (by omega),
          ih ((m + 1) / 10) (by omega) m (by omega)]

theorem natDigitsRev_pos (n : Nat) (h : 0 < n) :
    natDigitsRev n = n % 10 :: natDigitsRev (n / 10) := by
  cases n with
  | zero => omega
  | succ m =>
    show natDigitsRevFuel (m + 1) (m + 1) = _
    simp only [natDigitsRevFuel]
    congr 1
    exact natDigitsRevFuel_eq ((m + 1) / 10) m (by omega)

theorem natDigitsRev_lt (n : Nat) : ∀ d ∈ natDigitsRev n, d < 10 := by
  induction n using Nat.strong_induction_on with
  | _ n ih =>
    cases n with
    | zero => simp [natDigitsRev, natDigitsRevFuel]
    | succ m =>
      rw [natDigitsRev_pos (m + 1) (Nat.succ_pos m)]
      intro d hd
      rcases List.mem_cons.mp hd with h | h
      · omega
      · exact ih ((m + 1) / 10)
          (Nat.div_lt_self (Nat.succ_pos m) (by norm_num)) d h

theorem natRenderDigits_ne_nil (n : Nat) : natRenderDigits n ≠ [] := by
  unfold natRenderDigits
  by_cases h : n = 0
  · simp [h]
  · rw [if_neg h, natDigitsRev_pos n (Nat.pos_of_ne_zero h)]
    simp

theorem natRenderDigits_lt (n : Nat) : ∀ d ∈ natRenderDigits n, d < 10 := by
  unfold natRenderDigits
  by_cases h : n = 0
  · simp [h]
  · rw [if_neg h]
    intro d hd
    exact natDigitsRev_lt n d (List.mem_reverse.mp hd)

theorem natRenderDigits_split (n : Nat) (h : 10 ≤ n) :
    natRenderDigits n = natRenderDigits (n / 10) ++ [n % 10] := by
  have h1 : n ≠ 0 := by omega
  have h2 : n / 10 ≠ 0 := by omega
  unfold natRenderDigits
  rw [if_neg h1, if_neg h2, natDigitsRev_pos n (by omega)]
  simp

theorem digitsValAux_append_digit (l : List Nat) (acc d : Nat)
    (h1 : 48 ≤ d) (h2 : d ≤ 57) :
    digitsValAux acc (l ++ [d]) =
      (digitsValAux acc l).map (fun m => m * 10 + (d - 48)) := by
  induction l generalizing acc with
  | nil => simp [digitsValAux, h1, h2]
  | cons b t ih =>
    by_cases hb : 48 ≤ b ∧ b ≤ 57
    · simp only [List.cons_append, digitsValAux, hb, if_pos]
      exact ih (acc * 10 + (b - 48))
    · simp [digitsValAux, hb]

theorem digitsValAux_render (n : Nat) :
    ∀ acc, digitsValAux acc ((natRenderDigits n).map (fun d => d + 48)) =
      some (acc * 10 ^ (natRenderDigits n).length + n) := by
  induction n using Nat.strong_induction_on with
  | _ n ih =>
    intro acc
    by_cases h : 10 ≤ n
    · rw [natRenderDigits_split n h, List.map_append, List.map_cons,
        List.map_nil,
        digitsValAux_append_digit _ _ _ (by omega) (by have := Nat.mod_lt n (show 0 < 10 by norm_num); omega),
        ih (n / 10) (by omega) acc]
      simp only [Option.map_some', List.length_append, List.length_cons,
        List.length_nil]
      congr 1
      generalize (natRenderDigits (n / 10)).length = k
      rw [pow_succ]
      calc (acc * 10 ^ k + n / 10) * 10 + (n % 10 + 48 - 48)
          = acc * (10 ^ k * 10) + (n / 10 * 10 + (n % 10 + 48 - 48)) := by ring
        _ = acc * (10 ^ k * 10) + n := by congr 1; omega
    · have hr : natRenderDigits n = [n] := by
        unfold natRenderDigits
        by_cases h0 : n = 0
        · simp [h0]
        · rw [if_neg h0, natDigitsRev_pos n (Nat.pos_of_ne_zero h0)]
          have hq : n / 10 = 0 := by omega
          have hm : n % 10 = n := by omega
          rw [hq, hm]
          simp [natDigitsRev, natDigitsRevFuel]
      rw [hr]
      simp [digitsValAux, show 48 ≤ n + 48 by omega, show n + 48 ≤ 57 by omega]

theorem digitsVal_render (n : Nat) :
    digitsVal ((natRenderDigits n).map (fun d => d + 48)) = some n := by
  have h := digitsValAux_render n 0
  cases hcons : (natRenderDigits n).map (fun d => d + 48) with
  | nil =>
    rw [hcons] at h
    exact absurd (List.map_eq_nil_iff.mp hcons) (natRenderDigits_ne_nil n)
  | cons b t =>
    have hd : digitsVal (b :: t) = digitsValAux 0 (b :: t) := rfl
    rw [hd, ← hcons, h]
    simp

theorem parseIntBytes_render (i : Int) :
    parseIntBytes (intRenderBytes i) = some i := by
  cases i with
  | ofNat n =>
    have hdv := digitsVal_render n
    cases hr : natRenderDigits n with
    | nil => exact absurd hr (natRenderDigits_ne_nil n)
    | cons d ds =>
      have hd : d < 10 :=
        natRenderDigits_lt n d (by rw [hr]; exact List.mem_cons_self d ds)
      rw [hr] at hdv
      simp only [List.map_cons] at hdv
      simp only [intRenderBytes, hr, List.map_cons, parseIntBytes,
        if_neg (show ¬ (d + 48 = 45) by omega), hdv]
      rfl
  | negSucc m =>
    have hdv := digitsVal_render (m + 1)
    simp only [intRenderBytes, parseIntBytes, if_pos rfl, hdv]
    simp [Int.negSucc_eq]

theorem dropWhile_isWsByte_eq_self (l : List Nat)
    (h : ∀ b ∈ l, isWsByte b = false) : l.dropWhile isWsByte = l := by
  induction l with
  | nil => rfl
  | cons b t ih =>
    rw [List.dropWhile_cons]
    simp only [h b (List.mem_cons_self b t), Bool.false_eq_true, if_false]

theorem intRenderBytes_not_ws (i : Int) :
    ∀ b ∈ intRenderBytes i, isWsByte b = false := by
  intro b hb
  have hbb : b = 45 ∨ (48 ≤ b ∧ b ≤ 57) := by
    cases i with
    | ofNat n =>
      simp only [intRenderBytes] at hb
      obtain ⟨d, hd, rfl⟩ := List.mem_map.mp hb
      have := natRenderDigits_lt n d hd
      omega
    | negSucc m =>
      simp only [intRenderBytes] at hb
      rcases List.mem_cons.mp hb with rfl | hb2
      · left; rfl
      · obtain ⟨d, hd, rfl⟩ := List.mem_map.mp hb2
        have := natRenderDigits_lt (m + 1) d hd
        omega
  simp only [isWsByte, decide_eq_false_iff_not]
  omega

theorem pyIntParse_render (i : Int) : pyIntParse (intRenderBytes i) = some i := by
  have hall := intRenderBytes_not_ws i
  have h1 : (intRenderBytes i).dropWhile isWsByte = intRenderBytes i :=
    dropWhile_isWsByte_eq_self _ hall
  have h2 : (intRenderBytes i).reverse.dropWhile isWsByte =
      (intRenderBytes i).reverse :=
    dropWhile_isWsByte_eq_self _
      (by intro b hb; exact hall b (List.mem_reverse.mp hb))
  unfold pyIntParse
  rw [h1, h2, List.reverse_reverse]
  cases i with
  | ofNat n =>
    have hdv := digitsVal_render n
    cases hr : natRenderDigits n with
    | nil => exact absurd hr (natRenderDigits_ne_nil n)
    | cons d ds =>
      have hd : d < 10 :=
        natRenderDigits_lt n d (by rw [hr]; exact List.mem_cons_self d ds)
      rw [hr] at hdv
      simp only [List.map_cons] at hdv
      simp only [intRenderBytes, hr, List.map_cons, pySignedDigits,
        if_neg (show ¬ (d + 48 = 43) by omega),
        if_neg (show ¬ (d + 48 = 45) by omega), hdv]
      rfl
  | negSucc m =>
    have hdv := digitsVal_render (m + 1)
    simp only [intRenderBytes, pySignedDigits,
      if_neg (show ¬ ((45 : Nat) = 43) by omega), if_pos rfl, hdv]
    simp [Int.negSucc_eq]

/-! ### UTF-8 round trip -/

theorem utf8EncodeChar_ne_nil (n : Nat) : utf8EncodeChar n ≠ [] := by
  unfold utf8EncodeChar
  split_ifs <;> simp

theorem one_le_length_utf8EncodeChar (n : Nat) :
    1 ≤ (utf8EncodeChar n).length := by
  unfold utf8EncodeChar
  split_ifs <;> simp

theorem utf8DecodeOne_encodeChar (n : Nat) (hv : n.isValidChar)
    (rest : List Nat) :
    utf8DecodeOne (utf8EncodeChar n ++ rest) = some (n, rest) := by
  have hv2 : n < 0xD800 ∨ (0xDFFF < n ∧ n < 0x110000) := hv
  by_cases h1 : n < 0x80
  · simp only [utf8EncodeChar, if_pos h1, List.cons_append, List.nil_append,
      utf8DecodeOne]
  · by_cases h2 : n < 0x800
    · simp only [utf8EncodeChar, if_neg h1, if_pos h2, List.cons_append,
        List.nil_append, utf8DecodeOne]
      rw [if_neg (by omega), if_neg (by omega), if_pos (by omega),
        if_pos (by omega)]
      congr 2
      omega
    · by_cases h3 : n < 0x10000
      · simp only [utf8EncodeChar, if_neg h1, if_neg h2, if_pos h3,
          List.cons_append, List.nil_append, utf8DecodeOne]
        rw [if_neg (by omega), if_neg (by omega), if_neg (by omega),
          if_pos (by omega), if_pos (by omega)]
        congr 2
        omega
      · simp only [utf8EncodeChar, if_neg h1, if_neg h2, if_neg h3,
          List.cons_append, List.nil_append, utf8DecodeOne]
        rw [if_neg (by omega), if_neg (by omega), if_neg (by omega),
          if_neg (by omega), if_pos (by omega), if_pos (by omega)]
        congr 2
        omega

theorem utf8DecodeScalarsFuel_encode (cs : List Char) :
    ∀ fuel, cs.length ≤ fuel →
      utf8DecodeScalarsFuel fuel
          ((cs.map (fun c => utf8EncodeChar c.toNat)).flatten) =
        some (cs.map Char.toNat) := by
  induction cs with
  | nil =>
    intro fuel _
    simp [utf8DecodeScalarsFuel]
  | cons c cs ih =>
    intro fuel hf
    cases fuel with
    | zero => simp at hf
    | succ f =>
      have hd := utf8DecodeOne_encodeChar c.toNat c.valid
        ((cs.map (fun c => utf8EncodeChar c.toNat)).flatten)
      cases he : utf8EncodeChar c.toNat with
      | nil => exact absurd he (utf8EncodeChar_ne_nil c.toNat)
      | cons b0 tl =>
        rw [he] at hd
        simp only [List.cons_append] at hd
        simp only [List.map_cons, List.flatten_cons, he, List.cons_append,
          utf8DecodeScalarsFuel, hd]
        rw [ih f (by simp at hf; omega)]
        rfl

theorem length_le_length_flatten_encode (cs : List Char) :
    cs.length ≤ ((cs.map (fun c => utf8EncodeChar c.toNat)).flatten).length := by
  induction cs with
  | nil => simp
  | cons c cs ih =>
    simp only [List.map_cons, List.flatten_cons, List.length_append,
      List.length_cons]
    have := one_le_length_utf8EncodeChar c.toNat
    omega

theorem utf8DecodeScalars_encode (s : String) :
    utf8DecodeScalars (utf8Encode s) = some (s.data.map Char.toNat) := by
  unfold utf8DecodeScalars utf8Encode
  exact utf8DecodeScalarsFuel_encode s.data _
    (length_le_length_flatten_encode s.data)

theorem scalarsToChars_map_toNat (cs : List Char) :
    scalarsToChars (cs.map Char.toNat) = some cs := by
  induction cs with
  | nil => rfl
  | cons c cs ih =>
    have hv : (Char.toNat c).isValidChar := c.valid
    rw [List.map_cons]
    rw [show scalarsToChars (c.toNat :: cs.map Char.toNat) =
        (if (c.toNat).isValidChar then
          (scalarsToChars (cs.map Char.toNat)).map
            (fun l => Char.ofNat c.toNat :: l)
        else none) from rfl]
    rw [if_pos hv, ih, Char.ofNat_toNat]
    rfl

theorem utf8Decode_encode (s : String) : utf8Decode (utf8Encode s) = some s := by
  unfold utf8Decode
  rw [utf8DecodeScalars_encode]
  simp only [Option.some_bind, scalarsToChars_map_toNat, Option.map_some']

/-! ### Redis primitive operations on well-formed values -/

theorem updFn_same (f : String → Option RVal) (k : String) (v : RVal) :
    updFn f k v k = some v := by simp [updFn]

theorem updFn_ne (f : String → Option RVal) (k : String) (v : RVal)
    (k2 : String) (h : k2 ≠ k) : updFn f k v k2 = f k2 := by simp [updFn, h]

theorem rpush_optOfList (st : RedisState) (k : String) (l : List (List Nat))
    (e : List Nat) (h : st.kv k = optOfList l) :
    st.rpush k e = .ok
      ({ kv := updFn st.kv k (RVal.list (l ++ [e])),
         events := st.events ++ [REvent.rpush k e] }, (l ++ [e]).length) := by
  unfold RedisState.rpush
  by_cases hl : l = []
  · subst hl
    rw [show optOfList [] = none from rfl] at h
    rw [h]
    rfl
  · unfold optOfList at h
    rw [if_neg hl] at h
    rw [h]

theorem incr_optCounter (st : RedisState) (k : String) (n : Nat)
    (h : st.kv k = optCounter n) :
    st.incr k = .ok
      ({ kv := updFn st.kv k (RVal.str (intRenderBytes (n + 1))),
         events := st.events ++ [REvent.incr k] }, (n : Int) + 1) := by
  unfold RedisState.incr
  by_cases hn : n = 0
  · subst hn
    rw [show optCounter 0 = none from rfl] at h
    rw [h]
    rfl
  · unfold optCounter at h
    rw [if_neg hn] at h
    rw [h]
    simp only [parseIntBytes_render]

theorem lrangeAll_optOfList (st : RedisState) (k : String)
    (l : List (List Nat)) (h : st.kv k = optOfList l) :
    st.lrangeAll k = .ok l := by
  unfold RedisState.lrangeAll
  by_cases hl : l = []
  · subst hl
    rw [show optOfList [] = none from rfl] at h
    rw [h]
  · unfold optOfList at h
    rw [if_neg hl] at h
    rw [h]

/-! ### One call of the intended decorated store -/

theorem storeDecoratedIntended_eq (st : RedisState) (key : String) (c : CallArgs)
    (v : PyVal) (n : Nat) (I O : List (List Nat))
    (hb : bindStoreArgs c = some v)
    (hkey : key ≠ "Cache.store:outputs")
    (hctr : st.kv "Cache.store" = optCounter n)
    (hin : st.kv "Cache.store:inputs" = optOfList I)
    (hout : st.kv "Cache.store:outputs" = optOfList O) :
    Cache.storeDecoratedIntended key st c = .ok
      ({ kv := updFn (updFn (updFn (updFn st.kv
            "Cache.store:inputs" (RVal.list (I ++ [utf8Encode (pyStrTuple c.args)])))
            "Cache.store" (RVal.str (intRenderBytes (n + 1))))
            key (RVal.str (encodeValue v)))
            "Cache.store:outputs" (RVal.list (O ++ [utf8Encode key])),
         events := st.events ++
           [REvent.rpush "Cache.store:inputs" (utf8Encode (pyStrTuple c.args)),
            REvent.incr "Cache.store",
            REvent.set key (encodeValue v),
            REvent.rpush "Cache.store:outputs" (utf8Encode key)] },
       PyVal.str key) := by
  have hne1 : ("Cache.store" : String) ≠ "Cache.store:inputs" := by decide
  have hne2 : ("Cache.store:outputs" : String) ≠ "Cache.store:inputs" := by decide
  have hne3 : ("Cache.store:outputs" : String) ≠ "Cache.store" := by decide
  have hs1 : ("Cache.store" : String) ++ ":inputs" = "Cache.store:inputs" := by
    decide
  have hs2 : ("Cache.store" : String) ++ ":outputs" = "Cache.store:outputs" := by
    decide
  unfold Cache.storeDecoratedIntended call_history count_calls Cache.store
  rw [hs1, hs2]
  rw [rpush_optOfList st _ I _ hin]
  dsimp only
  rw [incr_optCounter _ _ n (by
    dsimp only
    rw [updFn_ne _ _ _ _ hne1]
    exact hctr)]
  dsimp only
  rw [hb]
  dsimp only
  unfold RedisState.set
  rw [rpush_optOfList _ _ O _ (by
    dsimp only
    rw [updFn_ne _ _ _ _ (Ne.symm hkey), updFn_ne _ _ _ _ hne3,
      updFn_ne _ _ _ _ hne2]
    exact hout)]
  dsimp only
  simp [List.append_assoc, pyStr]

/-! ### Traces of repeated calls -/

theorem runStores_invariant (st0 : RedisState) (uuids : Nat → String)
    (calls : Nat → CallArgs) (vs : Nat → PyVal)
    (hb : ∀ i, bindStoreArgs (calls i) = some (vs i))
    (hk : ∀ i, uuids i ≠ "Cache.store" ∧ uuids i ≠ "Cache.store:inputs" ∧
          uuids i ≠ "Cache.store:outputs") :
    ∀ n, ∃ stn,
      runStores uuids calls n (Cache.init st0) =
        .ok (stn, (List.range n).map (fun i => PyVal.str (uuids i))) ∧
      stn.kv "Cache.store" = optCounter n ∧
      stn.kv "Cache.store:inputs" =
        optOfList ((List.range n).map
          (fun i => utf8Encode (pyStrTuple (calls i).args))) ∧
      stn.kv "Cache.store:outputs" =
        optOfList ((List.range n).map (fun i => utf8Encode (uuids i))) := by
  intro n
  induction n with
  | zero => exact ⟨Cache.init st0, rfl, rfl, rfl, rfl⟩
  | succ m ih =>
    obtain ⟨stm, hrun, hctr, hin, hout⟩ := ih
    have hstep := storeDecoratedIntended_eq stm (uuids m) (calls m) (vs m) m _ _
      (hb m) (hk m).2.2 hctr hin hout
    refine ⟨RedisState.mk
      (updFn
        (updFn
          (updFn
            (updFn stm.kv "Cache.store:inputs"
              (RVal.list ((List.range m).map
                (fun i => utf8Encode (pyStrTuple (calls i).args)) ++
                [utf8Encode (pyStrTuple (calls m).args)])))
            "Cache.store" (RVal.str (intRenderBytes (m + 1))))
          (uuids m) (RVal.str (encodeValue (vs m))))
        "Cache.store:outputs"
        (RVal.list ((List.range m).map (fun i => utf8Encode (uuids i)) ++
          [utf8Encode (uuids m)])))
      (stm.events ++
        [REvent.rpush "Cache.store:inputs"
           (utf8Encode (pyStrTuple (calls m).args)),
         REvent.incr "Cache.store",
         REvent.set (uuids m) (encodeValue (vs m)),
         REvent.rpush "Cache.store:outputs" (utf8Encode (uuids m))]),
      ?_, ?_, ?_, ?_⟩
    · simp only [runStores, hrun, hstep]
      simp [List.range_succ]
    · dsimp only
      rw [updFn_ne _ _ _ _ (by decide), updFn_ne _ _ _ _ (Ne.symm (hk m).1),
        updFn_same]
      simp [optCounter]
    · dsimp only
      rw [updFn_ne _ _ _ _ (by decide), updFn_ne _ _ _ _ (Ne.symm (hk m).2.1),
        updFn_ne _ _ _ _ (by decide), updFn_same]
      simp [optOfList, List.range_succ]
    · dsimp only
      rw [updFn_same]
      simp [optOfList, List.range_succ]

/-! ### Further helper lemmas -/

theorem replayLines_length (q : String) :
    ∀ (ps : List (List Nat × List Nat)) (l : List String),
      replayLines q ps = some l → l.length = ps.length := by
  intro ps
  induction ps with
  | nil =>
    intro l hl
    simp only [replayLines] at hl
    cases hl
    rfl
  | cons p ps ih =>
    intro l hl
    obtain ⟨i, o⟩ := p
    simp only [replayLines] at hl
    cases hdi : utf8Decode i with
    | none => rw [hdi] at hl; cases hl
    | some si =>
      cases hdo : utf8Decode o with
      | none => rw [hdi, hdo] at hl; cases hl
      | some so =>
        rw [hdi, hdo] at hl
        cases hrec : replayLines q ps with
        | none => rw [hrec] at hl; cases hl
        | some ls =>
          rw [hrec] at hl
          cases hl
          simp [ih ls hrec]

theorem lrangeAll_set_ne (st : RedisState) (k : String) (b : List Nat)
    (k2 : String) (h : k2 ≠ k) :
    (st.set k b).lrangeAll k2 = st.lrangeAll k2 := by
  unfold RedisState.set RedisState.lrangeAll
  dsimp only
  rw [updFn_ne _ _ _ _ h]

theorem append_ne_self_of_ne_nil (q s : String) (h : s.length ≠ 0) :
    q ++ s ≠ q := by
  intro he
  have h2 := congrArg String.length he
  rw [String.length_append] at h2
  omega

/-! ### Claim theorems -/

/-- C1: retrieving the key returned by `store(v)` round-trips for every
supported scalar value: a raw `get` returns exactly the bytes the store
holds for `v` (its representation in the store), `get_str` recovers a
stored text value unchanged, `get_int` recovers a stored integer
unchanged, and a stored bytes value comes back as the same bytes. -/
theorem round_trip_get_store (st : RedisState) (key : String) (v : PyVal) :
    (Cache.store key st ⟨[v], []⟩).map
        (fun r => (r.2, Cache.get r.1 key none)) =
      .ok (PyVal.str key, .ok (some (PyVal.bytes (encodeValue v)))) ∧
    (∀ s, v = PyVal.str s →
      (Cache.store key st ⟨[v], []⟩).map (fun r => Cache.get_str r.1 key) =
        .ok (.ok (some (PyVal.str s)))) ∧
    (∀ n, v = PyVal.int n →
      (Cache.store key st ⟨[v], []⟩).map (fun r => Cache.get_int r.1 key) =
        .ok (.ok (some (PyVal.int n)))) ∧
    (∀ b, v = PyVal.bytes b →
      (Cache.store key st ⟨[v], []⟩).map (fun r => Cache.get r.1 key none) =
        .ok (.ok (some (PyVal.bytes b)))) := by
  have hstore : Cache.store key st ⟨[v], []⟩ =
      .ok (st.set key (encodeValue v), PyVal.str key) := rfl
  have hget : RedisState.get (st.set key (encodeValue v)) key =
      .ok (some (encodeValue v)) := by
    unfold RedisState.get RedisState.set
    dsimp only
    rw [updFn_same]
  refine ⟨?_, ?_, ?_, ?_⟩
  · rw [hstore]
    simp only [Except.map]
    unfold Cache.get
    rw [hget]
    rfl
  · rintro s rfl
    rw [hstore]
    simp only [Except.map]
    unfold Cache.get_str Cache.get
    rw [hget]
    dsimp only
    rw [show encodeValue (PyVal.str s) = utf8Encode s from rfl,
      utf8Decode_encode]
    rfl
  · rintro n rfl
    rw [hstore]
    simp only [Except.map]
    unfold Cache.get_int Cache.get
    rw [hget]
    dsimp only
    rw [show encodeValue (PyVal.int n) = intRenderBytes n from rfl,
      pyIntParse_render]
    rfl
  · rintro b rfl
    rw [hstore]
    simp only [Except.map]
    unfold Cache.get
    rw [hget]
    rfl

theorem round_trip_get_store_witness :
    ((Cache.store "k1" emptyState ⟨[PyVal.str "foo"], []⟩).map
        (fun r => Cache.get_str r.1 "k1") =
      .ok (.ok (some (PyVal.str "foo")))) ∧
    ((Cache.store "k1" emptyState ⟨[PyVal.str "foo"], []⟩).map
        (fun r => (r.2, Cache.get r.1 "k1" none)) =
      .ok (PyVal.str "k1", .ok (some (PyVal.bytes [102, 111, 111])))) ∧
    ((Cache.store "k2" emptyState ⟨[PyVal.int 42], []⟩).map
        (fun r => Cache.get_int r.1 "k2") =
      .ok (.ok (some (PyVal.int 42)))) :=
  ⟨(round_trip_get_store emptyState "k1" (PyVal.str "foo")).2.1 "foo" rfl,
   by
     rw [(round_trip_get_store emptyState "k1" (PyVal.str "foo")).1]
     decide,
   (round_trip_get_store emptyState "k2" (PyVal.int 42)).2.2.1 42 rfl⟩

/-- C2: the claim describes the intended `store` (generate a fresh UUID
key, write the value under it as the single keyspace write, return it),
and the store body indeed does exactly that; but the source's line 12
applies bare `@functools.wraps` to `store`, so the class attribute is a
`functools.partial` object without `__qualname__`, and the attribute read
at line 57, forced by `count_calls(Cache.store)` at line 86, fails
(`AttributeError`) before any call can happen. -/
theorem store_line12_wraps_attribute_error :
    qualnameAttr line12CacheStore = none ∧
    ∀ (st : RedisState) (key : String) (v : PyVal),
      (Cache.store key st ⟨[v], []⟩).map
          (fun r => (r.2, r.1.kv key, r.1.events)) =
        .ok (PyVal.str key, some (RVal.str (encodeValue v)),
             st.events ++ [REvent.set key (encodeValue v)]) := by
  refine ⟨rfl, ?_⟩
  intro st key v
  have : Cache.store key st ⟨[v], []⟩ =
      .ok (st.set key (encodeValue v), PyVal.str key) := rfl
  rw [this]
  simp only [Except.map]
  unfold RedisState.set
  dsimp only
  rw [updFn_same]

/-- C3: `get` on a key the store does not hold returns the null value and
never applies a supplied conversion function; `get_str` and `get_int`
likewise return null on a miss. -/
theorem get_miss_no_conversion (st : RedisState) (key : String)
    (h : st.kv key = none) :
    (∀ fn, Cache.get st key fn = .ok none) ∧
    Cache.get_str st key = .ok none ∧ Cache.get_int st key = .ok none := by
  have hg : RedisState.get st key = .ok none := by
    unfold RedisState.get
    rw [h]
  refine ⟨?_, ?_, ?_⟩
  · intro fn
    unfold Cache.get
    rw [hg]
    cases fn <;> rfl
  · unfold Cache.get_str Cache.get
    rw [hg]
    rfl
  · unfold Cache.get_int Cache.get
    rw [hg]
    rfl

theorem get_miss_no_conversion_witness :
    emptyState.kv "missing" = none ∧
    Cache.get emptyState "missing" (some (fun _ => .ok (PyVal.int 0))) =
      .ok none ∧
    Cache.get_str emptyState "missing" = .ok none :=
  ⟨rfl,
   (get_miss_no_conversion emptyState "missing" rfl).1
     (some (fun _ => .ok (PyVal.int 0))),
   (get_miss_no_conversion emptyState "missing" rfl).2.1⟩

/-- C8: constructing a `Cache` flushes the entire keyspace of the shared
store: afterwards every key is absent, and the flush is the only command
the constructor issues. -/
theorem init_clears_keyspace (st : RedisState) :
    (∀ k, (Cache.init st).kv k = none) ∧
    (Cache.init st).events = st.events ++ [REvent.flushdb] :=
  ⟨fun _ => rfl, rfl⟩

/-- C4: the source never produces the instrumented `store` the claim is
about — line 86's `count_calls(Cache.store)` reads `__qualname__` on the
`functools.partial` left by line 12 and raises `AttributeError` (first
conjunct) — so the claimed counter behaviour is the intent the code
misses: for the decoration lines 86-87 intend, after `n` calls from a
fresh cache the counter under the qualified name "Cache.store" is exactly
the decimal rendering of `n` (for `n = 0` the key does not exist yet,
since `INCR` only creates it on the first call). -/
theorem counter_after_n_stores (st0 : RedisState) (uuids : Nat → String)
    (calls : Nat → CallArgs) (vs : Nat → PyVal)
    (hb : ∀ i, bindStoreArgs (calls i) = some (vs i))
    (hk : ∀ i, uuids i ≠ "Cache.store" ∧ uuids i ≠ "Cache.store:inputs" ∧
          uuids i ≠ "Cache.store:outputs") (n : Nat) :
    line86QualnameRead = none ∧
    (runStores uuids calls n (Cache.init st0)).map
        (fun r => r.1.kv "Cache.store") =
      .ok (if n = 0 then none else some (RVal.str (intRenderBytes n))) := by
  refine ⟨rfl, ?_⟩
  obtain ⟨stn, hrun, hctr, -, -⟩ :=
    runStores_invariant st0 uuids calls vs hb hk n
  rw [hrun]
  simp only [Except.map]
  rw [hctr]
  rfl

theorem counter_after_n_stores_witness :
    (∀ i : Nat, bindStoreArgs ((fun _ => CallArgs.mk [PyVal.int 7] []) i) =
      some ((fun _ => PyVal.int 7) i)) ∧
    (∀ i : Nat, (fun _ => "k") i ≠ "Cache.store" ∧
      (fun _ => "k") i ≠ "Cache.store:inputs" ∧
      (fun _ => "k") i ≠ "Cache.store:outputs") ∧
    (line86QualnameRead = none ∧
    (runStores (fun _ => "k") (fun _ => CallArgs.mk [PyVal.int 7] []) 3
        (Cache.init emptyState)).map (fun r => r.1.kv "Cache.store") =
      .ok (if 3 = 0 then none else some (RVal.str (intRenderBytes 3)))) :=
  ⟨fun _ => rfl,
   fun _ => (by decide : ("k" : String) ≠ "Cache.store" ∧
       ("k" : String) ≠ "Cache.store:inputs" ∧
       ("k" : String) ≠ "Cache.store:outputs"),
   counter_after_n_stores emptyState (fun _ => "k")
     (fun _ => CallArgs.mk [PyVal.int 7] []) (fun _ => PyVal.int 7)
     (fun _ => rfl)
     (fun _ => (by decide : ("k" : String) ≠ "Cache.store" ∧
       ("k" : String) ≠ "Cache.store:inputs" ∧
       ("k" : String) ≠ "Cache.store:outputs")) 3⟩

/-- C5: the instrumented `store` the claim describes is never constructed
by the source (line 86 raises `AttributeError` on the `functools.partial`
left by line 12 — first conjunct); for the decoration lines 86-87 intend,
after `n` calls from a fresh cache the inputs log and the outputs log each
hold exactly `n` entries (one per call, so they always have equal length),
and the k-th output entry is the textual rendering of the k-th call's
return value (the returned key). -/
theorem history_logs_after_n_stores (st0 : RedisState) (uuids : Nat → String)
    (calls : Nat → CallArgs) (vs : Nat → PyVal)
    (hb : ∀ i, bindStoreArgs (calls i) = some (vs i))
    (hk : ∀ i, uuids i ≠ "Cache.store" ∧ uuids i ≠ "Cache.store:inputs" ∧
          uuids i ≠ "Cache.store:outputs") (n : Nat) :
    line86QualnameRead = none ∧
    (runStores uuids calls n (Cache.init st0)).map
        (fun r => (r.1.kv "Cache.store:inputs",
                   r.1.kv "Cache.store:outputs", r.2)) =
      .ok (optOfList ((List.range n).map
             (fun i => utf8Encode (pyStrTuple (calls i).args))),
           optOfList ((List.range n).map
             (fun i => utf8Encode (pyStr (PyVal.str (uuids i))))),
           (List.range n).map (fun i => PyVal.str (uuids i))) := by
  refine ⟨rfl, ?_⟩
  obtain ⟨stn, hrun, -, hin, hout⟩ :=
    runStores_invariant st0 uuids calls vs hb hk n
  rw [hrun]
  simp only [Except.map]
  rw [hin, hout]
  rfl

theorem history_logs_after_n_stores_witness :
    (∀ i : Nat, bindStoreArgs ((fun _ => CallArgs.mk [PyVal.int 7] []) i) =
      some ((fun _ => PyVal.int 7) i)) ∧
    (line86QualnameRead = none ∧
    (runStores (fun _ => "k") (fun _ => CallArgs.mk [PyVal.int 7] []) 2
        (Cache.init emptyState)).map
        (fun r => (r.1.kv "Cache.store:inputs",
                   r.1.kv "Cache.store:outputs", r.2)) =
      .ok (optOfList ((List.range 2).map
             (fun i => utf8Encode (pyStrTuple
               ((fun _ => CallArgs.mk [PyVal.int 7] []) i).args))),
           optOfList ((List.range 2).map
             (fun i => utf8Encode (pyStr (PyVal.str ((fun _ => "k") i))))),
           (List.range 2).map (fun i => PyVal.str ((fun _ => "k") i)))) :=
  ⟨fun _ => rfl,
   history_logs_after_n_stores emptyState (fun _ => "k")
     (fun _ => CallArgs.mk [PyVal.int 7] []) (fun _ => PyVal.int 7)
     (fun _ => rfl)
     (fun _ => (by decide : ("k" : String) ≠ "Cache.store" ∧
       ("k" : String) ≠ "Cache.store:inputs" ∧
       ("k" : String) ≠ "Cache.store:outputs")) 2⟩

/-- C6: no invocation of the decorated `store` can happen in the source —
the composition at lines 86-87 raises `AttributeError` before any wrapper
exists (first conjunct) — so the claimed ordering is the intent the code
misses: one invocation of the intended decorated `store` performs its
side effects in exactly this order: the rendered positional arguments are
appended to the inputs log, then the counter is incremented, then the
underlying method's write happens, then the rendered return value is
appended to the outputs log (history-logging wraps counting, and the
increment precedes the wrapped call's write). -/
theorem store_side_effect_order (st : RedisState) (key : String)
    (c : CallArgs) (v : PyVal) (n : Nat) (I O : List (List Nat))
    (hb : bindStoreArgs c = some v)
    (hkey : key ≠ "Cache.store:outputs")
    (hctr : st.kv "Cache.store" = optCounter n)
    (hin : st.kv "Cache.store:inputs" = optOfList I)
    (hout : st.kv "Cache.store:outputs" = optOfList O) :
    line86QualnameRead = none ∧
    (Cache.storeDecoratedIntended key st c).map (fun r => r.1.events) =
      .ok (st.events ++
        [REvent.rpush "Cache.store:inputs" (utf8Encode (pyStrTuple c.args)),
         REvent.incr "Cache.store",
         REvent.set key (encodeValue v),
         REvent.rpush "Cache.store:outputs" (utf8Encode key)]) := by
  refine ⟨rfl, ?_⟩
  rw [storeDecoratedIntended_eq st key c v n I O hb hkey hctr hin hout]
  rfl

theorem store_side_effect_order_witness :
    bindStoreArgs (CallArgs.mk [PyVal.str "foo"] []) =
      some (PyVal.str "foo") ∧
    (line86QualnameRead = none ∧
    (Cache.storeDecoratedIntended "k" (Cache.init emptyState)
        (CallArgs.mk [PyVal.str "foo"] [])).map (fun r => r.1.events) =
      .ok ((Cache.init emptyState).events ++
        [REvent.rpush "Cache.store:inputs"
           (utf8Encode (pyStrTuple [PyVal.str "foo"])),
         REvent.incr "Cache.store",
         REvent.set "k" (encodeValue (PyVal.str "foo")),
         REvent.rpush "Cache.store:outputs" (utf8Encode "k")])) :=
  ⟨rfl,
   store_side_effect_order (Cache.init emptyState) "k"
     (CallArgs.mk [PyVal.str "foo"] []) (PyVal.str "foo") 0 [] []
     rfl (by decide) rfl rfl rfl⟩

/-- C7: `replay` prints the call count and then one transcript line per
positional pair of the two logs: the number of transcript lines is the
minimum of the two log lengths (they are paired by `zip`), and with no
recorded calls the header reports length 0 and no lines follow. -/
theorem replay_transcript (st : RedisState) (q : String)
    (ins outs : List (List Nat)) (ls : List String)
    (h1 : st.lrangeAll (q ++ ":inputs") = .ok ins)
    (h2 : st.lrangeAll (q ++ ":outputs") = .ok outs)
    (h3 : replayLines q (ins.zip outs) = some ls) :
    replay st q =
      .ok ((q ++ " was called " ++ intRenderStr ins.length ++ " times:")
        :: ls) ∧
    ls.length = min ins.length outs.length ∧
    (ins = [] → ls = []) := by
  refine ⟨?_, ?_, ?_⟩
  · unfold replay
    simp only [h1, h2, h3]
  · rw [replayLines_length q (ins.zip outs) ls h3, List.length_zip]
  · rintro rfl
    rw [show ([] : List (List Nat)).zip outs = [] from rfl] at h3
    simp only [replayLines] at h3
    cases h3
    rfl

theorem replay_transcript_witness :
    mismatchState.lrangeAll ("Cache.store" ++ ":inputs") =
      .ok [[40, 41], [40, 41]] ∧
    mismatchState.lrangeAll ("Cache.store" ++ ":outputs") =
      .ok [[107], [107]] ∧
    replayLines "Cache.store" ([[40, 41], [40, 41]].zip [[107], [107]]) =
      some ["Cache.store" ++ "(*" ++ "()" ++ ") -> " ++ "k",
            "Cache.store" ++ "(*" ++ "()" ++ ") -> " ++ "k"] ∧
    replay mismatchState "Cache.store" =
      .ok (("Cache.store" ++ " was called " ++ intRenderStr 2 ++ " times:")
        :: ["Cache.store" ++ "(*" ++ "()" ++ ") -> " ++ "k",
            "Cache.store" ++ "(*" ++ "()" ++ ") -> " ++ "k"]) :=
  ⟨by decide, by decide, by decide,
   (replay_transcript mismatchState "Cache.store" [[40, 41], [40, 41]]
     [[107], [107]]
     ["Cache.store" ++ "(*" ++ "()" ++ ") -> " ++ "k",
      "Cache.store" ++ "(*" ++ "()" ++ ") -> " ++ "k"]
     (by decide) (by decide) (by decide)).1⟩

/-- C9: the call count `replay` reports is the length of the inputs log,
not the stored call counter: overwriting the counter key leaves the output
of `replay` unchanged, and the printed header always shows `len(inputs)`. -/
theorem replay_count_from_inputs (st : RedisState) (q : String)
    (b : List Nat) (ins : List (List Nat)) (lines : List String)
    (h1 : st.lrangeAll (q ++ ":inputs") = .ok ins)
    (h2 : replay st q = .ok lines) :
    replay (st.set q b) q = replay st q ∧
    lines.head? =
      some (q ++ " was called " ++ intRenderStr ins.length ++ " times:") := by
  constructor
  · have hne1 : q ++ ":inputs" ≠ q :=
      append_ne_self_of_ne_nil q ":inputs" (by decide)
    have hne2 : q ++ ":outputs" ≠ q :=
      append_ne_self_of_ne_nil q ":outputs" (by decide)
    unfold replay
    rw [lrangeAll_set_ne st q b _ hne1, lrangeAll_set_ne st q b _ hne2]
  · cases ho : st.lrangeAll (q ++ ":outputs") with
    | error e =>
      have he : replay st q = .error (PyErr.redis e) := by
        unfold replay
        simp only [h1, ho]
      rw [he] at h2
      cases h2
    | ok outs =>
      cases hrl : replayLines q (ins.zip outs) with
      | none =>
        have he : replay st q = .error PyErr.unicodeDecodeError := by
          unfold replay
          simp only [h1, ho, hrl]
        rw [he] at h2
        cases h2
      | some ls =>
        have he : replay st q = .ok ((q ++ " was called " ++
            intRenderStr ins.length ++ " times:") :: ls) := by
          unfold replay
          simp only [h1, ho, hrl]
        rw [he] at h2
        rw [← Except.ok.inj h2]
        rfl

theorem replay_count_from_inputs_witness :
    mismatchState.kv "Cache.store" = some (RVal.str [53]) ∧
    parseIntBytes [53] = some 5 ∧
    mismatchState.lrangeAll ("Cache.store" ++ ":inputs") =
      .ok [[40, 41], [40, 41]] ∧
    replay mismatchState "Cache.store" =
      .ok (("Cache.store" ++ " was called " ++ intRenderStr 2 ++ " times:")
        :: ["Cache.store" ++ "(*" ++ "()" ++ ") -> " ++ "k",
            "Cache.store" ++ "(*" ++ "()" ++ ") -> " ++ "k"]) ∧
    (replay (mismatchState.set "Cache.store" [55]) "Cache.store" =
       replay mismatchState "Cache.store" ∧
     (("Cache.store" ++ " was called " ++ intRenderStr 2 ++ " times:")
        :: ["Cache.store" ++ "(*" ++ "()" ++ ") -> " ++ "k",
            "Cache.store" ++ "(*" ++ "()" ++ ") -> " ++ "k"]).head? =
       some ("Cache.store" ++ " was called " ++
         intRenderStr (([[40, 41], [40, 41]] : List (List Nat)).length) ++
         " times:")) :=
  ⟨by decide, by decide, by decide, by decide,
   replay_count_from_inputs mismatchState "Cache.store" [55]
     [[40, 41], [40, 41]]
     (("Cache.store" ++ " was called " ++ intRenderStr 2 ++ " times:")
       :: ["Cache.store" ++ "(*" ++ "()" ++ ") -> " ++ "k",
           "Cache.store" ++ "(*" ++ "()" ++ ") -> " ++ "k"])
     (by decide) (by decide)⟩

/-- C10: the instrumented method the claim describes is never constructed
by the source (line 86 raises `AttributeError` on the `functools.partial`
left by line 12 — first conjunct); for the decoration lines 86-87 intend,
keyword arguments are forwarded unchanged to the underlying `store` but
omitted from the inputs log: two calls whose positional arguments agree
leave identical inputs logs even when their keyword arguments differ,
while the value written under the key still comes from the keyword
binding. -/
theorem kwargs_forwarded_not_logged (st : RedisState) (key : String)
    (c1 c2 : CallArgs) (v1 v2 : PyVal) (n : Nat) (I O : List (List Nat))
    (hargs : c1.args = c2.args)
    (hb1 : bindStoreArgs c1 = some v1) (hb2 : bindStoreArgs c2 = some v2)
    (hkey : key ≠ "Cache.store:outputs") (hkey2 : key ≠ "Cache.store:inputs")
    (hctr : st.kv "Cache.store" = optCounter n)
    (hin : st.kv "Cache.store:inputs" = optOfList I)
    (hout : st.kv "Cache.store:outputs" = optOfList O) :
    line86QualnameRead = none ∧
    (Cache.storeDecoratedIntended key st c1).map
        (fun r => r.1.kv "Cache.store:inputs") =
      (Cache.storeDecoratedIntended key st c2).map
        (fun r => r.1.kv "Cache.store:inputs") ∧
    (Cache.storeDecoratedIntended key st c1).map (fun r => r.1.kv key) =
      .ok (some (RVal.str (encodeValue v1))) ∧
    (Cache.storeDecoratedIntended key st c2).map (fun r => r.1.kv key) =
      .ok (some (RVal.str (encodeValue v2))) := by
  have e1 := storeDecoratedIntended_eq st key c1 v1 n I O hb1 hkey hctr hin hout
  have e2 := storeDecoratedIntended_eq st key c2 v2 n I O hb2 hkey hctr hin hout
  refine ⟨rfl, ?_, ?_, ?_⟩
  · rw [e1, e2]
    simp only [Except.map]
    rw [hargs]
    rw [updFn_ne _ _ _ _ (by decide), updFn_ne _ _ _ _ (Ne.symm hkey2),
      updFn_ne _ _ _ _ (by decide), updFn_same,
      updFn_ne _ _ _ _ (by decide), updFn_ne _ _ _ _ (Ne.symm hkey2),
      updFn_ne _ _ _ _ (by decide), updFn_same]
  · rw [e1]
    simp only [Except.map]
    rw [updFn_ne _ _ _ _ hkey, updFn_same]
  · rw [e2]
    simp only [Except.map]
    rw [updFn_ne _ _ _ _ hkey, updFn_same]

theorem kwargs_forwarded_not_logged_witness :
    (CallArgs.mk [] [("data", PyVal.int 1)]).args =
      (CallArgs.mk [] [("data", PyVal.int 2)]).args ∧
    bindStoreArgs (CallArgs.mk [] [("data", PyVal.int 1)]) =
      some (PyVal.int 1) ∧
    bindStoreArgs (CallArgs.mk [] [("data", PyVal.int 2)]) =
      some (PyVal.int 2) ∧
    (line86QualnameRead = none ∧
    (Cache.storeDecoratedIntended "k" (Cache.init emptyState)
        (CallArgs.mk [] [("data", PyVal.int 1)])).map
        (fun r => r.1.kv "Cache.store:inputs") =
      (Cache.storeDecoratedIntended "k" (Cache.init emptyState)
        (CallArgs.mk [] [("data", PyVal.int 2)])).map
        (fun r => r.1.kv "Cache.store:inputs") ∧
    (Cache.storeDecoratedIntended "k" (Cache.init emptyState)
        (CallArgs.mk [] [("data", PyVal.int 1)])).map
        (fun r => r.1.kv "k") =
      .ok (some (RVal.str (encodeValue (PyVal.int 1)))) ∧
    (Cache.storeDecoratedIntended "k" (Cache.init emptyState)
        (CallArgs.mk [] [("data", PyVal.int 2)])).map
        (fun r => r.1.kv "k") =
      .ok (some (RVal.str (encodeValue (PyVal.int 2))))) :=
  ⟨rfl, by decide, by decide,
   kwargs_forwarded_not_logged (Cache.init emptyState) "k"
     (CallArgs.mk [] [("data", PyVal.int 1)])
     (CallArgs.mk [] [("data", PyVal.int 2)])
     (PyVal.int 1) (PyVal.int 2) 0 [] [] rfl (by decide) (by decide)
     (by decide) (by decide) rfl rfl rfl⟩
